import Mathlib

/-!
Shallow embedding of `labs/three_routers_three_hosts/shared/controller.py`:
a P4Runtime controller that parses a routing-info file, derives three table
entries per routing record (route, ARP, MAC-forward), writes them to switch
`s1`, dumps three tables for verification, and handles `KeyboardInterrupt`
and `grpc.RpcError` at the top level of `main` before shutting down all
switch connections.
-/

namespace Controller

/-- Python exceptions that drive the control flow of `main`: the two caught
by its `except` clauses (`KeyboardInterrupt` and `grpc.RpcError`) and the two
that the line-parsing code can raise uncaught (`IndexError` from
`ip_mac_pair[4]`, `ValueError` from tuple unpacking or `int(...)`). -/
inductive PyExn
  | keyboardInterrupt
  | rpcError
  | indexError
  | valueError
deriving DecidableEq

/-- Python `str.split(sep)` for a one-character separator, acting on the
character list: splitting the empty string gives one empty field, and a
separator at either end produces an empty field. -/
def splitChar (sep : Char) : List Char → List (List Char)
  | [] => [[]]
  | c :: cs =>
    if c = sep then
      [] :: splitChar sep cs
    else
      match splitChar sep cs with
      | [] => [[c]]
      | g :: gs => (c :: g) :: gs

/-- Python `s.split(sep)` on strings, for a one-character separator. -/
def pySplit (s : String) (sep : Char) : List String :=
  (splitChar sep s.toList).map String.mk

/-- Python list indexing `xs[i]`: raises `IndexError` when out of range. -/
def pyIndex (xs : List String) (i : Nat) : Except PyExn String :=
  match xs.get? i with
  | some v => Except.ok v
  | none => Except.error PyExn.indexError

/-- Python `s.strip(chr(10))` as used on the egress-port field: removes
newline characters from both ends of the string. -/
def stripNewline (s : String) : String :=
  String.mk (((s.toList.dropWhile (· = '\n')).reverse.dropWhile (· = '\n')).reverse)

/-- Numeric value of a decimal digit character, `none` otherwise. -/
def digitVal (c : Char) : Option Nat :=
  if '0' ≤ c ∧ c ≤ '9' then some (c.toNat - '0'.toNat) else none

/-- Left fold of decimal digits; `none` as soon as a non-digit appears. -/
def digitsValAux : List Char → Nat → Option Nat
  | [], acc => some acc
  | c :: cs, acc =>
    match digitVal c with
    | some d => digitsValAux cs (acc * 10 + d)
    | none => none

/-- Python `int(s)` restricted to an optional leading minus sign followed by
decimal digits (the shapes appearing in routing-info files); raises
`ValueError` on anything else, in particular on the empty string. -/
def pyInt (s : String) : Except PyExn Int :=
  match s.toList with
  | [] => Except.error PyExn.valueError
  | '-' :: cs =>
    match cs, digitsValAux cs 0 with
    | [], _ => Except.error PyExn.valueError
    | _, some n => Except.ok (-(n : Int))
    | _, none => Except.error PyExn.valueError
  | cs =>
    match digitsValAux cs 0 with
    | some n => Except.ok ((n : Int))
    | none => Except.error PyExn.valueError

/-- One parsed line of the routing-info file: the values bound by the loop
body of `main` (`prefix`, `prefix_len`, `next_hop_ip`, `next_hop_mac`,
`egress_mac`, `egress_port`). -/
structure RoutingRecord where
  prefixAddr : String
  prefixLen : Int
  next_hop_ip : String
  next_hop_mac : String
  egress_mac : String
  egress_port : Int
deriving DecidableEq

/-- The per-line parsing performed inline by the install loop, in Python
evaluation order: `line.split(',')`, then unpacking
`ip_mac_pair[0].split('/')` into exactly two parts (`ValueError` otherwise),
then indexing fields 1-4 (`IndexError` when absent), then
`int(ip_mac_pair[4].strip(chr(10)))` and `int(prefix_len)`. -/
def parseLine (line : String) : Except PyExn RoutingRecord :=
  match pyIndex (pySplit line ',') 0 with
  | Except.error e => Except.error e
  | Except.ok field0 =>
    match pySplit field0 '/' with
    | [p, plStr] =>
      match pyIndex (pySplit line ',') 1 with
      | Except.error e => Except.error e
      | Except.ok nh =>
        match pyIndex (pySplit line ',') 2 with
        | Except.error e => Except.error e
        | Except.ok nhm =>
          match pyIndex (pySplit line ',') 3 with
          | Except.error e => Except.error e
          | Except.ok em =>
            match pyIndex (pySplit line ',') 4 with
            | Except.error e => Except.error e
            | Except.ok portStr =>
              match pyInt (stripNewline portStr) with
              | Except.error e => Except.error e
              | Except.ok port =>
                match pyInt plStr with
                | Except.error e => Except.error e
                | Except.ok pl =>
                  Except.ok { prefixAddr := p, prefixLen := pl, next_hop_ip := nh,
                              next_hop_mac := nhm, egress_mac := em, egress_port := port }
    | _ => Except.error PyExn.valueError

/-- Boolean success test for `parseLine`. -/
def parseOk (line : String) : Bool :=
  match parseLine line with
  | Except.ok _ => true
  | Except.error _ => false

/-- Match-field value as passed to `buildTableEntry`: a plain string is an
exact-match value, a two-element list of address and length is a
longest-prefix match. -/
inductive MatchSpec
  | exactM (value : String)
  | lpmM (value : String) (lenBits : Int)
deriving DecidableEq

/-- Action-parameter value as passed to `buildTableEntry`: a string or an
integer. -/
inductive ParamSpec
  | strP (value : String)
  | intP (value : Int)
deriving DecidableEq

/-- Semantic description of one table entry, exactly the keyword arguments
of a `p4info_helper.buildTableEntry(...)` call in `main`. -/
structure TableEntryDescriptor where
  table_name : String
  match_fields : List (String × MatchSpec)
  action_name : String
  action_params : List (String × ParamSpec)
deriving DecidableEq

/-- The routing-table entry built for a record (first `buildTableEntry` call
of the loop body). -/
def routingTableEntry (r : RoutingRecord) : TableEntryDescriptor :=
  { table_name := "MyIngress.ipv4_route",
    match_fields := [("hdr.ipv4.dst_ipAddr", MatchSpec.lpmM r.prefixAddr r.prefixLen)],
    action_name := "MyIngress.forward_to_next_hop",
    action_params := [("next_hop", ParamSpec.strP r.next_hop_ip)] }

/-- The ARP-table entry built for a record (second `buildTableEntry` call of
the loop body). -/
def arpTableEntry (r : RoutingRecord) : TableEntryDescriptor :=
  { table_name := "MyIngress.arp_table",
    match_fields := [("meta.next_hop", MatchSpec.exactM r.next_hop_ip)],
    action_name := "MyIngress.change_dst_mac",
    action_params := [("dst_mac", ParamSpec.strP r.next_hop_mac)] }

/-- The MAC-forwarding entry built for a record (third `buildTableEntry`
call of the loop body). -/
def macTableEntry (r : RoutingRecord) : TableEntryDescriptor :=
  { table_name := "MyIngress.dmac_forward",
    match_fields := [("hdr.ethernet.dest_macAddr", MatchSpec.exactM r.next_hop_mac)],
    action_name := "MyIngress.forward_to_port",
    action_params := [("egress_port", ParamSpec.intP r.egress_port),
                      ("egress_mac", ParamSpec.strP r.egress_mac)] }

/-- The three entries the loop body builds and writes for one record, in the
order the `WriteTableEntry` calls appear in `main`. -/
def deriveEntries (r : RoutingRecord) : List TableEntryDescriptor :=
  [routingTableEntry r, arpTableEntry r, macTableEntry r]

/-- The routing-spec line of the single-record install scenario. -/
def demoLine : String := "10.0.1.0/24,10.0.1.1,08:00:00:00:01:11,08:00:00:00:01:00,1"

/-- A second well-formed routing-spec line. -/
def demoLine2 : String := "10.0.2.0/24,10.0.2.1,08:00:00:00:02:22,08:00:00:00:02:00,2"

/-- A malformed line with 4 comma-separated fields instead of 5. -/
def badLine4 : String := "10.0.2.0/24,10.0.2.1,08:00:00:00:02:22,08:00:00:00:02:00"

/-- The record that parsing `demoLine` yields. -/
def demoRecord : RoutingRecord :=
  { prefixAddr := "10.0.1.0", prefixLen := 24, next_hop_ip := "10.0.1.1",
    next_hop_mac := "08:00:00:00:01:11", egress_mac := "08:00:00:00:01:00",
    egress_port := 1 }

/-- Observable steps of one execution of `main`, in program order: creating
the `Bmv2SwitchConnection`, `MasterArbitrationUpdate`,
`SetForwardingPipelineConfig`, each `WriteTableEntry` call (with whether the
RPC succeeded), each `print_table_entries` dump, the two handler printouts,
and `ShutdownAllSwitchConnections`. -/
inductive Event
  | connect
  | arbitrate
  | pushConfig
  | write (entry : TableEntryDescriptor) (ok : Bool)
  | readTable (tableName : String)
  | printGrpcDiag
  | printShuttingDown
  | shutdownAll
deriving DecidableEq

/-- Exceptions injected by the environment (device, transport, operator) at
each transport-touching step of the run: connection setup, arbitration,
pipeline-config push, the n-th `WriteTableEntry` call, and the n-th table
dump. -/
structure FaultSpec where
  connectFault : Option PyExn
  arbitrateFault : Option PyExn
  pushConfigFault : Option PyExn
  writeFault : Nat → Option PyExn
  readFault : Nat → Option PyExn

/-- A run in which no step raises. -/
def noFault : FaultSpec :=
  { connectFault := none, arbitrateFault := none, pushConfigFault := none,
    writeFault := fun _ => none, readFault := fun _ => none }

/-- Sequential composition of two effectful fragments: the second runs only
when the first did not raise, mirroring Python statement sequencing. -/
def seqRun (a b : List Event × Option PyExn) : List Event × Option PyExn :=
  match a with
  | (evs, none) => (evs ++ b.1, b.2)
  | (evs, some e) => (evs, some e)

/-- One straight-line step that emits its event and raises the injected
exception, if any. -/
def runStep (ev : Event) (f : Option PyExn) : List Event × Option PyExn :=
  ([ev], f)

/-- The three `WriteTableEntry` calls of one loop iteration, using the
global write counter `idx` to look up injected faults; a raising write stops
the run at that call. -/
def runWrites (fault : FaultSpec) (idx : Nat) : List TableEntryDescriptor → List Event × Option PyExn
  | [] => ([], none)
  | e :: rest =>
    match fault.writeFault idx with
    | some exn => ([Event.write e false], some exn)
    | none => seqRun ([Event.write e true], none) (runWrites fault (idx + 1) rest)

/-- The `for line in f` install loop: parse each line inline (raising
`IndexError` or `ValueError` on malformed input), then build and write the
three derived entries before moving to the next line. -/
def runLines (fault : FaultSpec) : List String → Nat → List Event × Option PyExn
  | [], _ => ([], none)
  | line :: rest, widx =>
    match parseLine line with
    | Except.error e => ([], some e)
    | Except.ok r =>
      seqRun (runWrites fault widx (deriveEntries r)) (runLines fault rest (widx + 3))

/-- The table names passed to the three `print_table_entries` calls after
the install loop. -/
def readTables : List String :=
  ["MyIngress.ipv4_route", "MyIngress.arp_table_entry", "MyIngress.mac_table_entry"]

/-- The verification read-back calls, in program order. -/
def runReads (fault : FaultSpec) (idx : Nat) : List String → List Event × Option PyExn
  | [] => ([], none)
  | t :: rest =>
    match fault.readFault idx with
    | some exn => ([Event.readTable t], some exn)
    | none => seqRun ([Event.readTable t], none) (runReads fault (idx + 1) rest)

/-- The body of the `try` block of `main`: connect, arbitrate, push the
pipeline config, run the install loop, then dump the three tables. -/
def tryBody (fault : FaultSpec) (lines : List String) : List Event × Option PyExn :=
  seqRun (runStep Event.connect fault.connectFault)
    (seqRun (runStep Event.arbitrate fault.arbitrateFault)
      (seqRun (runStep Event.pushConfig fault.pushConfigFault)
        (seqRun (runLines fault lines 0)
          (runReads fault 0 readTables))))

/-- How the process ends: normal fall-through, one of the two `except`
clauses, or an exception neither clause fieldMatches, which propagates out of
`main` uncaught. -/
inductive TermKind
  | normal
  | caughtInterrupt
  | caughtRpc
  | uncaught (e : PyExn)
deriving DecidableEq

/-- Whether the run ended in an uncaught exception. -/
def TermKind.isUncaught : TermKind → Bool
  | TermKind.uncaught _ => true
  | _ => false

/-- Process exit code: `main` returning normally (including after a caught
exception) lets the script exit 0; an uncaught exception terminates the
interpreter with a nonzero status. -/
def exitCode : TermKind → Nat
  | TermKind.uncaught _ => 1
  | _ => 0

/-- One whole execution of `main`: run the `try` body, dispatch on the
raised exception as the two `except` clauses do (`KeyboardInterrupt` prints
a shutdown notice, `grpc.RpcError` prints the gRPC diagnostic, anything else
propagates), and call `ShutdownAllSwitchConnections` afterwards — which an
uncaught exception skips, since that call is not in a `finally` block. -/
def run (fault : FaultSpec) (lines : List String) : List Event × TermKind :=
  match tryBody fault lines with
  | (evs, none) => (evs ++ [Event.shutdownAll], TermKind.normal)
  | (evs, some PyExn.keyboardInterrupt) =>
    (evs ++ [Event.printShuttingDown, Event.shutdownAll], TermKind.caughtInterrupt)
  | (evs, some PyExn.rpcError) =>
    (evs ++ [Event.printGrpcDiag, Event.shutdownAll], TermKind.caughtRpc)
  | (evs, some e) => (evs, TermKind.uncaught e)

/-- The descriptors of all `WriteTableEntry` calls issued in a trace, in
issue order, whether or not the RPC succeeded. -/
def writesOf : List Event → List TableEntryDescriptor
  | [] => []
  | Event.write d _ :: rest => d :: writesOf rest
  | _ :: rest => writesOf rest

/-- The descriptors of the successfully installed entries of a trace. -/
def okWrites : List Event → List TableEntryDescriptor
  | [] => []
  | Event.write d true :: rest => d :: okWrites rest
  | _ :: rest => okWrites rest

/-- The table names dumped during read-back, in order. -/
def readsOf : List Event → List String
  | [] => []
  | Event.readTable t :: rest => t :: readsOf rest
  | _ :: rest => readsOf rest

/-- The table names targeted by issued writes, in order. -/
def writtenTables (evs : List Event) : List String :=
  (writesOf evs).map TableEntryDescriptor.table_name

/-- The records obtained from the lines up to (excluding) the first line
whose inline parse raises, matching how far the install loop gets. -/
def parsedRecords : List String → List RoutingRecord
  | [] => []
  | line :: rest =>
    match parseLine line with
    | Except.error _ => []
    | Except.ok r => r :: parsedRecords rest

/-- Steps that P4Runtime only permits on a session holding mastership. -/
def needsMaster : Event → Bool
  | Event.pushConfig => true
  | Event.write _ _ => true
  | Event.readTable _ => true
  | _ => false

/-- Fault spec whose only fault is a transport error on the very first
`WriteTableEntry` call. -/
def faultFirstWrite : FaultSpec :=
  { noFault with writeFault := fun i => if i = 0 then some PyExn.rpcError else none }

/-- Fault spec whose only fault is a transport error on the pipeline-config
push. -/
def faultPushRpc : FaultSpec :=
  { noFault with pushConfigFault := some PyExn.rpcError }

/-- Wire form of one P4Runtime match field: the protobuf `FieldMatch` oneof,
restricted to the two kinds this program installs. Bytes are modelled as
naturals below 256. -/
inductive FieldMatchKind
  | exactW (value : List Nat)
  | lpmW (value : List Nat) (lenBits : Nat)
deriving DecidableEq

/-- One match field of a wire table entry. -/
structure WireMatch where
  field_id : Nat
  kind : FieldMatchKind
deriving DecidableEq

/-- Reading `match.exact.value` in Python protobuf: when the oneof is set to
the `lpm` branch, the unset `exact` submessage is returned as its default
instance, whose `value` is the empty byte string. -/
def exactValue (m : WireMatch) : List Nat :=
  match m.kind with
  | FieldMatchKind.exactW v => v
  | FieldMatchKind.lpmW _ _ => []

/-- The wire bytes actually carried by a match field, whichever branch of
the oneof is set. -/
def wireBytes (m : WireMatch) : List Nat :=
  match m.kind with
  | FieldMatchKind.exactW v => v
  | FieldMatchKind.lpmW v _ => v

/-- Whether a match field uses the exact branch of the oneof. -/
def isExactMatch (m : WireMatch) : Bool :=
  match m.kind with
  | FieldMatchKind.exactW _ => true
  | FieldMatchKind.lpmW _ _ => false

/-- One action parameter of a wire table entry. -/
structure WireActionParam where
  param_id : Nat
  value : List Nat
deriving DecidableEq

/-- One table entry as returned by `ReadTableEntries`. -/
structure WireTableEntry where
  fieldMatches : List WireMatch
  action_id : Nat
  params : List WireActionParam
deriving DecidableEq

/-- The schema lookups `print_table_entries` performs on the p4info helper:
`get_match_field_name(table_name, match_field_id)`,
`get_actions_name(action_id)` and
`get_action_param_name(action_name, param_id)`. -/
structure P4InfoHelper where
  matchFieldName : String → Nat → String
  actionNameOf : Nat → String
  actionParamName : String → Nat → String

/-- Hexadecimal digit character for a value below 16. -/
def hexDigit (n : Nat) : Char :=
  if n < 10 then Char.ofNat (48 + n) else Char.ofNat (87 + n)

/-- Python `bytes.hex()` for one byte: two lowercase hex digits. -/
def hexByte (b : Nat) : String :=
  String.mk [hexDigit ((b % 256) / 16), hexDigit (b % 16)]

/-- Python `bytes.hex()`: concatenation of two-digit byte encodings. -/
def hexOf (bs : List Nat) : String :=
  (bs.map hexByte).foldl (· ++ ·) ""

/-- Concatenation of a list of strings. -/
def strJoin (xs : List String) : String :=
  xs.foldl (· ++ ·) ""

/-- The line `print_table_entries` emits for one entry, concatenating its
`print(..., end=" ")` calls: for each match, the schema-decoded field name,
a colon, and `match.exact.value.hex()`; then the schema-decoded action name
between pipes; then each parameter's schema-decoded name, a colon, and
`param.value.hex()`. -/
def renderEntryLine (h : P4InfoHelper) (tableName : String) (e : WireTableEntry) : String :=
  strJoin (e.fieldMatches.map fun m =>
      h.matchFieldName tableName m.field_id ++ ":" ++ hexOf (exactValue m) ++ " ")
    ++ "| " ++ h.actionNameOf e.action_id ++ " | "
    ++ strJoin (e.params.map fun p =>
      h.actionParamName (h.actionNameOf e.action_id) p.param_id ++ ":" ++ hexOf p.value ++ " ")

/-- The entry line as the specification describes it: identical to
`renderEntryLine` except that every match value is printed as the hex
encoding of its wire bytes, regardless of which oneof branch carries them. -/
def specEntryLine (h : P4InfoHelper) (tableName : String) (e : WireTableEntry) : String :=
  strJoin (e.fieldMatches.map fun m =>
      h.matchFieldName tableName m.field_id ++ ":" ++ hexOf (wireBytes m) ++ " ")
    ++ "| " ++ h.actionNameOf e.action_id ++ " | "
    ++ strJoin (e.params.map fun p =>
      h.actionParamName (h.actionNameOf e.action_id) p.param_id ++ ":" ++ hexOf p.value ++ " ")

/-- A concrete schema catalog for the route table. -/
def demoHelper : P4InfoHelper :=
  { matchFieldName := fun _ _ => "hdr.ipv4.dst_ipAddr",
    actionNameOf := fun _ => "MyIngress.forward_to_next_hop",
    actionParamName := fun _ _ => "next_hop" }

/-- A route-table wire entry with a longest-prefix match on 10.0.1.0/24 and
next-hop parameter 10.0.1.1 — the wire form of the single-record scenario's
route entry. -/
def demoLpmEntry : WireTableEntry :=
  { fieldMatches := [{ field_id := 1, kind := FieldMatchKind.lpmW [10, 0, 1, 0] 24 }],
    action_id := 7,
    params := [{ param_id := 1, value := [10, 0, 1, 1] }] }

/-- A wire entry whose single match is exact. -/
def demoExactEntry : WireTableEntry :=
  { fieldMatches := [{ field_id := 1, kind := FieldMatchKind.exactW [10, 0, 1, 1] }],
    action_id := 7,
    params := [{ param_id := 1, value := [8, 0, 0, 0, 1, 17] }] }

/-- The three CLI path arguments. -/
structure Args where
  p4info : String
  bmv2_json : String
  routing_info : String
deriving DecidableEq

/-- What a failed startup check produces: `parser.print_help()`, the printed
diagnostic, and the `parser.exit(1)` status. -/
structure StartupResult where
  usagePrinted : Bool
  message : String
  code : Nat
deriving DecidableEq

/-- The three file-existence checks at the bottom of `controller.py`, in
order; `none` means all files exist and `main` is entered. The third check
tests `args.routing_info` but prints the BMv2 message with `args.bmv2_json`,
exactly as the source does. -/
def checkArgs (fileExists : String → Bool) (a : Args) : Option StartupResult :=
  if fileExists a.p4info = false then
    some { usagePrinted := true,
           message := "\np4info file not found: " ++ a.p4info ++ "\nHave you run 'make'?",
           code := 1 }
  else if fileExists a.bmv2_json = false then
    some { usagePrinted := true,
           message := "\nBMv2 JSON file not found: " ++ a.bmv2_json ++ "\nHave you run 'make'?",
           code := 1 }
  else if fileExists a.routing_info = false then
    some { usagePrinted := true,
           message := "\nBMv2 JSON file not found: " ++ a.bmv2_json ++ "\nHave you run 'make'?",
           code := 1 }
  else none

/-- Modelled from the spec: the state of one switch connection as tracked by
`utils.p4runtime_lib.switch`, whose source is not part of this repository. -/
inductive ConnState
  | unconnected
  | connected
  | master
  | closed
deriving DecidableEq

/-- Modelled from the spec: `ShutdownAllSwitchConnections` from
`utils.p4runtime_lib.switch` is not part of this repository; per the spec it
releases the transport of every connection, is idempotent, and is always
safe to call even if connect or arbitration never completed, so it is
modelled as a total function closing every connection in any state. -/
def shutdownAllSwitchConnections (cs : List ConnState) : List ConnState :=
  cs.map fun _ => ConnState.closed

theorem seqRun_fst_none (a b : List Event × Option PyExn) (h : a.2 = none) :
    seqRun a b = (a.1 ++ b.1, b.2) := by
  obtain ⟨evs, exn⟩ := a
  cases exn with
  | none => rfl
  | some e => simp at h

theorem seqRun_fst_some (a b : List Event × Option PyExn) (e : PyExn) (h : a.2 = some e) :
    seqRun a b = a := by
  obtain ⟨evs, exn⟩ := a
  cases exn with
  | none => simp at h
  | some e2 => rfl

theorem writesOf_append (l1 l2 : List Event) :
    writesOf (l1 ++ l2) = writesOf l1 ++ writesOf l2 := by
  induction l1 with
  | nil => rfl
  | cons e rest ih => cases e <;> simp [writesOf, ih]

theorem okWrites_append (l1 l2 : List Event) :
    okWrites (l1 ++ l2) = okWrites l1 ++ okWrites l2 := by
  induction l1 with
  | nil => rfl
  | cons e rest ih =>
    cases e with
    | write d ok => cases ok <;> simp [okWrites, ih]
    | _ => simp [okWrites, ih]

theorem readsOf_append (l1 l2 : List Event) :
    readsOf (l1 ++ l2) = readsOf l1 ++ readsOf l2 := by
  induction l1 with
  | nil => rfl
  | cons e rest ih => cases e <;> simp [readsOf, ih]

theorem noFault_writeFault (i : Nat) : noFault.writeFault i = none := rfl

theorem noFault_readFault (i : Nat) : noFault.readFault i = none := rfl

theorem runWrites_cons_some (f : FaultSpec) (i : Nat) (e : TableEntryDescriptor)
    (rest : List TableEntryDescriptor) (ex : PyExn) (hf : f.writeFault i = some ex) :
    runWrites f i (e :: rest) = ([Event.write e false], some ex) := by
  rw [runWrites, hf]

theorem runWrites_cons_none (f : FaultSpec) (i : Nat) (e : TableEntryDescriptor)
    (rest : List TableEntryDescriptor) (hf : f.writeFault i = none) :
    runWrites f i (e :: rest) =
      (Event.write e true :: (runWrites f (i + 1) rest).1, (runWrites f (i + 1) rest).2) := by
  rw [runWrites, hf]
  rfl

theorem runLines_cons_error (f : FaultSpec) (line : String) (rest : List String) (i : Nat)
    (e : PyExn) (hp : parseLine line = Except.error e) :
    runLines f (line :: rest) i = ([], some e) := by
  rw [runLines, hp]

theorem runLines_cons_ok (f : FaultSpec) (line : String) (rest : List String) (i : Nat)
    (r : RoutingRecord) (hp : parseLine line = Except.ok r) :
    runLines f (line :: rest) i =
      seqRun (runWrites f i (deriveEntries r)) (runLines f rest (i + 3)) := by
  rw [runLines, hp]

theorem runReads_cons_some (f : FaultSpec) (i : Nat) (t : String) (rest : List String)
    (ex : PyExn) (hf : f.readFault i = some ex) :
    runReads f i (t :: rest) = ([Event.readTable t], some ex) := by
  rw [runReads, hf]

theorem runReads_cons_none (f : FaultSpec) (i : Nat) (t : String) (rest : List String)
    (hf : f.readFault i = none) :
    runReads f i (t :: rest) =
      (Event.readTable t :: (runReads f (i + 1) rest).1, (runReads f (i + 1) rest).2) := by
  rw [runReads, hf]
  rfl

theorem parsedRecords_cons_error (line : String) (rest : List String) (e : PyExn)
    (hp : parseLine line = Except.error e) :
    parsedRecords (line :: rest) = [] := by
  rw [parsedRecords, hp]

theorem parsedRecords_cons_ok (line : String) (rest : List String) (r : RoutingRecord)
    (hp : parseLine line = Except.ok r) :
    parsedRecords (line :: rest) = r :: parsedRecords rest := by
  rw [parsedRecords, hp]

theorem runWrites_noFault (i : Nat) (es : List TableEntryDescriptor) :
    runWrites noFault i es = (es.map (fun e => Event.write e true), none) := by
  induction es generalizing i with
  | nil => rfl
  | cons e rest ih =>
    rw [runWrites_cons_none noFault i e rest (noFault_writeFault i), ih (i + 1)]
    rfl

theorem writesOf_map_write (es : List TableEntryDescriptor) (ok : Bool) :
    writesOf (es.map fun e => Event.write e ok) = es := by
  induction es with
  | nil => rfl
  | cons e rest ih => simp [writesOf, ih]

theorem okWrites_map_write_true (es : List TableEntryDescriptor) :
    okWrites (es.map fun e => Event.write e true) = es := by
  induction es with
  | nil => rfl
  | cons e rest ih => simp [okWrites, ih]

theorem runWrites_none_writesOf (f : FaultSpec) (i : Nat) (es : List TableEntryDescriptor)
    (h : (runWrites f i es).2 = none) : writesOf (runWrites f i es).1 = es := by
  induction es generalizing i with
  | nil => rfl
  | cons e rest ih =>
    cases hf : f.writeFault i with
    | some ex => rw [runWrites_cons_some f i e rest ex hf] at h; simp at h
    | none =>
      rw [runWrites_cons_none f i e rest hf] at h ⊢
      simp only at h
      simp [writesOf, ih _ h]

theorem runWrites_writesOf_pre (f : FaultSpec) (i : Nat) (es : List TableEntryDescriptor) :
    ∃ t, writesOf (runWrites f i es).1 ++ t = es := by
  induction es generalizing i with
  | nil => exact ⟨[], rfl⟩
  | cons e rest ih =>
    cases hf : f.writeFault i with
    | some ex =>
      refine ⟨rest, ?_⟩
      rw [runWrites_cons_some f i e rest ex hf]
      simp [writesOf]
    | none =>
      obtain ⟨t, ht⟩ := ih (i + 1)
      refine ⟨t, ?_⟩
      rw [runWrites_cons_none f i e rest hf]
      simp [writesOf, ht]

theorem runWrites_events (f : FaultSpec) (i : Nat) (es : List TableEntryDescriptor) :
    ∀ ev ∈ (runWrites f i es).1, ∃ d ok, ev = Event.write d ok := by
  induction es generalizing i with
  | nil => intro ev h; simp [runWrites] at h
  | cons e rest ih =>
    intro ev h
    cases hf : f.writeFault i with
    | some ex =>
      rw [runWrites_cons_some f i e rest ex hf] at h
      simp at h
      exact ⟨e, false, h⟩
    | none =>
      rw [runWrites_cons_none f i e rest hf] at h
      simp only [List.mem_cons] at h
      rcases h with h | h
      · exact ⟨e, true, h⟩
      · exact ih (i + 1) ev h

theorem runLines_writesOf_pre (f : FaultSpec) (ls : List String) (i : Nat) :
    ∃ t, writesOf (runLines f ls i).1 ++ t = (parsedRecords ls).flatMap deriveEntries := by
  induction ls generalizing i with
  | nil => exact ⟨[], rfl⟩
  | cons line rest ih =>
    cases hp : parseLine line with
    | error e =>
      refine ⟨[], ?_⟩
      rw [runLines_cons_error f line rest i e hp, parsedRecords_cons_error line rest e hp]
      rfl
    | ok r =>
      rw [runLines_cons_ok f line rest i r hp, parsedRecords_cons_ok line rest r hp,
        List.flatMap_cons]
      cases hw : (runWrites f i (deriveEntries r)).2 with
      | some ex =>
        obtain ⟨t, ht⟩ := runWrites_writesOf_pre f i (deriveEntries r)
        refine ⟨t ++ (parsedRecords rest).flatMap deriveEntries, ?_⟩
        rw [seqRun_fst_some _ _ _ hw, ← List.append_assoc, ht]
      | none =>
        obtain ⟨t, ht⟩ := ih (i + 3)
        refine ⟨t, ?_⟩
        rw [seqRun_fst_none _ _ hw]
        simp only [writesOf_append, runWrites_none_writesOf f i _ hw, List.append_assoc, ht]

theorem runLines_noFault_writesOf (ls : List String) (i : Nat) :
    writesOf (runLines noFault ls i).1 = (parsedRecords ls).flatMap deriveEntries := by
  induction ls generalizing i with
  | nil => rfl
  | cons line rest ih =>
    cases hp : parseLine line with
    | error e =>
      rw [runLines_cons_error noFault line rest i e hp, parsedRecords_cons_error line rest e hp]
      rfl
    | ok r =>
      rw [runLines_cons_ok noFault line rest i r hp, parsedRecords_cons_ok line rest r hp,
        List.flatMap_cons, runWrites_noFault, seqRun_fst_none _ _ rfl]
      simp only [writesOf_append, writesOf_map_write, ih (i + 3)]

theorem runLines_events (f : FaultSpec) (ls : List String) (i : Nat) :
    ∀ ev ∈ (runLines f ls i).1, ∃ d ok, ev = Event.write d ok := by
  induction ls generalizing i with
  | nil => intro ev h; simp [runLines] at h
  | cons line rest ih =>
    intro ev h
    cases hp : parseLine line with
    | error e => rw [runLines_cons_error f line rest i e hp] at h; simp at h
    | ok r =>
      rw [runLines_cons_ok f line rest i r hp] at h
      cases hw : (runWrites f i (deriveEntries r)).2 with
      | some ex =>
        rw [seqRun_fst_some _ _ _ hw] at h
        exact runWrites_events f i _ ev h
      | none =>
        rw [seqRun_fst_none _ _ hw] at h
        simp only [List.mem_append] at h
        rcases h with h | h
        · exact runWrites_events f i _ ev h
        · exact ih (i + 3) ev h

theorem writesOf_runReads (f : FaultSpec) (i : Nat) (ts : List String) :
    writesOf (runReads f i ts).1 = [] := by
  induction ts generalizing i with
  | nil => rfl
  | cons t rest ih =>
    cases hf : f.readFault i with
    | some ex => rw [runReads_cons_some f i t rest ex hf]; rfl
    | none =>
      rw [runReads_cons_none f i t rest hf]
      simp [writesOf, ih (i + 1)]

theorem getLast?_append_singleton {α : Type} (l : List α) (a : α) :
    (l ++ [a]).getLast? = some a :=
  List.getLast?_concat l

theorem tryBody_shape (f : FaultSpec) (ls : List String) :
    (∃ e, tryBody f ls = ([Event.connect], some e)) ∨
    (∃ rest exn, tryBody f ls = (Event.connect :: Event.arbitrate :: rest, exn)) := by
  unfold tryBody runStep
  cases hc : f.connectFault with
  | some e => left; exact ⟨e, rfl⟩
  | none =>
    right
    cases ha : f.arbitrateFault with
    | some e => exact ⟨[], some e, rfl⟩
    | none => exact ⟨_, _, rfl⟩

theorem run_cases (f : FaultSpec) (ls : List String) :
    (run f ls = ((tryBody f ls).1 ++ [Event.shutdownAll], TermKind.normal) ∧
      (tryBody f ls).2 = none) ∨
    (run f ls = ((tryBody f ls).1 ++ [Event.printShuttingDown, Event.shutdownAll],
        TermKind.caughtInterrupt) ∧
      (tryBody f ls).2 = some PyExn.keyboardInterrupt) ∨
    (run f ls = ((tryBody f ls).1 ++ [Event.printGrpcDiag, Event.shutdownAll],
        TermKind.caughtRpc) ∧
      (tryBody f ls).2 = some PyExn.rpcError) ∨
    (∃ e, (e = PyExn.indexError ∨ e = PyExn.valueError) ∧
      run f ls = ((tryBody f ls).1, TermKind.uncaught e) ∧
      (tryBody f ls).2 = some e) := by
  rcases ht : tryBody f ls with ⟨evs, exn⟩
  cases exn with
  | none =>
    left
    refine ⟨?_, rfl⟩
    rw [run, ht]
  | some e =>
    cases e with
    | keyboardInterrupt =>
      right; left
      refine ⟨?_, rfl⟩
      rw [run, ht]
    | rpcError =>
      right; right; left
      refine ⟨?_, rfl⟩
      rw [run, ht]
    | indexError =>
      right; right; right
      exact ⟨PyExn.indexError, Or.inl rfl, by rw [run, ht], rfl⟩
    | valueError =>
      right; right; right
      exact ⟨PyExn.valueError, Or.inr rfl, by rw [run, ht], rfl⟩

theorem run_trace_shape (f : FaultSpec) (ls : List String) :
    ∃ suffix, (run f ls).1 = (tryBody f ls).1 ++ suffix ∧
      writesOf suffix = [] ∧ ∀ ev ∈ suffix, needsMaster ev = false := by
  rcases run_cases f ls with ⟨h, _⟩ | ⟨h, _⟩ | ⟨h, _⟩ | ⟨e, _, h, _⟩
  · exact ⟨[Event.shutdownAll], by rw [h], rfl, by decide⟩
  · exact ⟨[Event.printShuttingDown, Event.shutdownAll], by rw [h], rfl, by decide⟩
  · exact ⟨[Event.printGrpcDiag, Event.shutdownAll], by rw [h], rfl, by decide⟩
  · exact ⟨[], by rw [h]; simp, rfl, by decide⟩

theorem run_writesOf (f : FaultSpec) (ls : List String) :
    writesOf (run f ls).1 = writesOf (tryBody f ls).1 := by
  obtain ⟨suffix, hs, hw, _⟩ := run_trace_shape f ls
  rw [hs, writesOf_append, hw, List.append_nil]

theorem tryBody_writesOf_eq (f : FaultSpec) (ls : List String)
    (h1 : f.connectFault = none) (h2 : f.arbitrateFault = none)
    (h3 : f.pushConfigFault = none) :
    writesOf (tryBody f ls).1 = writesOf (runLines f ls 0).1 := by
  unfold tryBody runStep
  rw [h1, h2, h3]
  rw [seqRun_fst_none _ _ rfl, seqRun_fst_none _ _ rfl, seqRun_fst_none _ _ rfl]
  simp only
  cases hl : (runLines f ls 0).2 with
  | some e =>
    rw [seqRun_fst_some _ _ _ hl]
    simp [writesOf_append, writesOf]
  | none =>
    rw [seqRun_fst_none _ _ hl]
    simp [writesOf_append, writesOf, writesOf_runReads]

theorem tryBody_writesOf (f : FaultSpec) (ls : List String) :
    writesOf (tryBody f ls).1 = writesOf (runLines f ls 0).1 ∨
    writesOf (tryBody f ls).1 = [] := by
  cases hc : f.connectFault with
  | some e =>
    right
    unfold tryBody runStep
    rw [hc, seqRun_fst_some _ _ _ rfl]
    rfl
  | none =>
    cases ha : f.arbitrateFault with
    | some e =>
      right
      unfold tryBody runStep
      rw [hc, seqRun_fst_none _ _ rfl, ha, seqRun_fst_some _ _ _ rfl]
      rfl
    | none =>
      cases hpc : f.pushConfigFault with
      | some e =>
        right
        unfold tryBody runStep
        rw [hc, seqRun_fst_none _ _ rfl, ha, seqRun_fst_none _ _ rfl, hpc,
          seqRun_fst_some _ _ _ rfl]
        rfl
      | none => exact Or.inl (tryBody_writesOf_eq f ls hc ha hpc)

theorem length_four_shape {α : Type} (l : List α) (h : l.length = 4) :
    ∃ a b c d, l = [a, b, c, d] := by
  rcases l with _ | ⟨a, _ | ⟨b, _ | ⟨c, _ | ⟨d, _ | ⟨e, t⟩⟩⟩⟩⟩ <;> simp_all

theorem length_two_shape {α : Type} (l : List α) (h : l.length = 2) :
    ∃ a b, l = [a, b] := by
  rcases l with _ | ⟨a, _ | ⟨b, _ | ⟨c, t⟩⟩⟩ <;> simp_all

theorem parseLine_four_fields (bad : String)
    (hbad4 : (pySplit bad ',').length = 4)
    (hslash : (pySplit ((pySplit bad ',').headI) '/').length = 2) :
    parseLine bad = Except.error PyExn.indexError := by
  obtain ⟨a, b, c, d, hp⟩ := length_four_shape _ hbad4
  rw [hp] at hslash
  simp only [List.headI] at hslash
  obtain ⟨p, q, hq⟩ := length_two_shape _ hslash
  rw [parseLine, hp]
  simp [pyIndex, hq]

theorem parseOk_ok (l : String) (h : parseOk l = true) :
    ∃ r, parseLine l = Except.ok r := by
  unfold parseOk at h
  cases hpl : parseLine l with
  | ok r => exact ⟨r, rfl⟩
  | error e => rw [hpl] at h; simp at h

theorem runLines_good_bad (bad : String) (tail : List String)
    (hb : parseLine bad = Except.error PyExn.indexError) :
    ∀ (good : List String), (∀ l ∈ good, parseOk l = true) → ∀ (i : Nat),
      (runLines noFault (good ++ bad :: tail) i).2 = some PyExn.indexError ∧
      (okWrites ((runLines noFault (good ++ bad :: tail) i).1)).length = 3 * good.length := by
  intro good
  induction good with
  | nil =>
    intro _ i
    rw [List.nil_append, runLines_cons_error noFault bad tail i PyExn.indexError hb]
    exact ⟨rfl, rfl⟩
  | cons l ls ih =>
    intro hg i
    obtain ⟨r, hr⟩ := parseOk_ok l (hg l (by simp))
    obtain ⟨h1, h2⟩ := ih (fun x hx => hg x (by simp [hx])) (i + 3)
    rw [List.cons_append, runLines_cons_ok noFault l (ls ++ bad :: tail) i r hr,
      runWrites_noFault, seqRun_fst_none _ _ rfl]
    constructor
    · exact h1
    · simp only [okWrites_append, okWrites_map_write_true, List.length_append,
        List.length_cons, h2]
      simp [deriveEntries, okWrites]
      ring

theorem tryBody_setup_ok (f : FaultSpec) (ls : List String)
    (h1 : f.connectFault = none) (h2 : f.arbitrateFault = none)
    (h3 : f.pushConfigFault = none) :
    tryBody f ls =
      (Event.connect :: Event.arbitrate :: Event.pushConfig ::
        (seqRun (runLines f ls 0) (runReads f 0 readTables)).1,
       (seqRun (runLines f ls 0) (runReads f 0 readTables)).2) := by
  unfold tryBody runStep
  rw [h1, h2, h3]
  rw [seqRun_fst_none _ _ rfl, seqRun_fst_none _ _ rfl, seqRun_fst_none _ _ rfl]
  rfl

theorem getLast?_append_pair {α : Type} (l : List α) (a b : α) :
    (l ++ [a, b]).getLast? = some b := by
  rw [show l ++ [a, b] = (l ++ [a]) ++ [b] by simp, getLast?_append_singleton]

/-- C2: every routing record derives exactly three table entries — a route
entry (prefix match on the destination-prefix field, action parameter the
next-hop address), a neighbor/ARP entry (exact match on the next-hop
address, parameter the next-hop link-layer address), and a forward entry
(exact match on the destination link-layer address, parameters the egress
port and egress link-layer address) — and the line
`10.0.1.0/24,10.0.1.1,08:00:00:00:01:11,08:00:00:00:01:00,1` derives exactly
those three descriptors. -/
theorem c2_single_record_derivation :
    (∀ r : RoutingRecord, (deriveEntries r).length = 3) ∧
    parseLine demoLine = Except.ok demoRecord ∧
    deriveEntries demoRecord =
      [{ table_name := "MyIngress.ipv4_route",
         match_fields := [("hdr.ipv4.dst_ipAddr", MatchSpec.lpmM "10.0.1.0" 24)],
         action_name := "MyIngress.forward_to_next_hop",
         action_params := [("next_hop", ParamSpec.strP "10.0.1.1")] },
       { table_name := "MyIngress.arp_table",
         match_fields := [("meta.next_hop", MatchSpec.exactM "10.0.1.1")],
         action_name := "MyIngress.change_dst_mac",
         action_params := [("dst_mac", ParamSpec.strP "08:00:00:00:01:11")] },
       { table_name := "MyIngress.dmac_forward",
         match_fields := [("hdr.ethernet.dest_macAddr", MatchSpec.exactM "08:00:00:00:01:11")],
         action_name := "MyIngress.forward_to_port",
         action_params := [("egress_port", ParamSpec.intP 1),
                           ("egress_mac", ParamSpec.strP "08:00:00:00:01:00")] }] :=
  ⟨fun _ => rfl, rfl, rfl⟩

/-- C1 (failing input): with two well-formed routing records and a transport
error on the very first `WriteTableEntry`, the install loop is abandoned at
that write — only one write is ever issued, zero entries install (the claim
expects 3(N−1) = 3), the second record is never processed, and no per-entry
report exists (the run just ends as a caught gRPC error). -/
theorem c1_first_failure_aborts_install :
    writesOf ((run faultFirstWrite [demoLine, demoLine2]).1) =
      [routingTableEntry demoRecord] ∧
    okWrites ((run faultFirstWrite [demoLine, demoLine2]).1) = [] ∧
    (run faultFirstWrite [demoLine, demoLine2]).2 = TermKind.caughtRpc := by
  decide

/-- C3: table-entry writes are issued in input-record order and, within each
record, in the fixed order route entry, ARP entry, MAC-forward entry: in
every run the issued write sequence is a truncation of the flattened
per-record sequence, and a fault-free run issues exactly that sequence. -/
theorem c3_writes_in_program_order (fault : FaultSpec) (lines : List String) :
    (∃ tail, writesOf ((run fault lines).1) ++ tail =
      (parsedRecords lines).flatMap
        (fun r => [routingTableEntry r, arpTableEntry r, macTableEntry r])) ∧
    writesOf ((run noFault lines).1) =
      (parsedRecords lines).flatMap
        (fun r => [routingTableEntry r, arpTableEntry r, macTableEntry r]) := by
  constructor
  · rw [run_writesOf]
    rcases tryBody_writesOf fault lines with h | h
    · rw [h]
      exact runLines_writesOf_pre fault lines 0
    · rw [h]
      exact ⟨(parsedRecords lines).flatMap
        (fun r => [routingTableEntry r, arpTableEntry r, macTableEntry r]),
        List.nil_append _⟩
  · rw [run_writesOf, tryBody_writesOf_eq noFault lines rfl rfl rfl,
      runLines_noFault_writesOf]
    rfl

/-- C5 (failing input): for a one-record specification, the install loop
writes to tables `MyIngress.ipv4_route`, `MyIngress.arp_table` and
`MyIngress.dmac_forward`, but the verification read-back dumps
`MyIngress.ipv4_route`, `MyIngress.arp_table_entry` and
`MyIngress.mac_table_entry`; the ARP and MAC tables that were written are
never read back. -/
theorem c5_readback_table_name_mismatch :
    writtenTables ((run noFault [demoLine]).1) =
      ["MyIngress.ipv4_route", "MyIngress.arp_table", "MyIngress.dmac_forward"] ∧
    readsOf ((run noFault [demoLine]).1) =
      ["MyIngress.ipv4_route", "MyIngress.arp_table_entry", "MyIngress.mac_table_entry"] ∧
    "MyIngress.arp_table" ∉ readsOf ((run noFault [demoLine]).1) ∧
    "MyIngress.dmac_forward" ∉ readsOf ((run noFault [demoLine]).1) := by
  decide

/-- C6: the mastership-arbitration request is issued before the
forwarding-pipeline configuration push and before any table-entry write or
table read: any such event in any run's trace is preceded by the arbitration
event. -/
theorem c6_arbitration_before_master_ops (fault : FaultSpec) (lines : List String)
    (i : Nat) (ev : Event) (hget : ((run fault lines).1).get? i = some ev)
    (hneeds : needsMaster ev = true) :
    ∃ j, j < i ∧ ((run fault lines).1).get? j = some Event.arbitrate := by
  obtain ⟨suffix, hs, _, hsf⟩ := run_trace_shape fault lines
  rcases tryBody_shape fault lines with ⟨e, hte⟩ | ⟨rest, exn, hte⟩
  · exfalso
    have htr : (run fault lines).1 = Event.connect :: suffix := by
      rw [hs, hte]
      rfl
    rw [htr] at hget
    have hmem : ev ∈ Event.connect :: suffix := List.get?_mem hget
    rcases List.mem_cons.mp hmem with h | h
    · rw [h] at hneeds
      exact absurd hneeds (by decide)
    · rw [hsf ev h] at hneeds
      exact Bool.false_ne_true hneeds
  · have htr : (run fault lines).1 =
        Event.connect :: Event.arbitrate :: (rest ++ suffix) := by
      rw [hs, hte]
      rfl
    cases i with
    | zero =>
      rw [htr] at hget
      simp only [List.get?] at hget
      cases hget
      exact absurd hneeds (by decide)
    | succ i1 =>
      cases i1 with
      | zero =>
        rw [htr] at hget
        simp only [List.get?] at hget
        cases hget
        exact absurd hneeds (by decide)
      | succ n =>
        refine ⟨1, by omega, ?_⟩
        rw [htr]
        rfl

/-- C7: when a gRPC transport error is the exception that escapes the `try`
body — at session setup, pipeline-config push, the install loop, or
verification read-back — the gRPC diagnostic is printed and the process
terminates with exit code 0. -/
theorem c7_rpc_error_prints_and_exits_zero (fault : FaultSpec) (lines : List String)
    (h : (tryBody fault lines).2 = some PyExn.rpcError) :
    Event.printGrpcDiag ∈ (run fault lines).1 ∧ exitCode ((run fault lines).2) = 0 := by
  rcases run_cases fault lines with ⟨hr, hn⟩ | ⟨hr, hn⟩ | ⟨hr, hn⟩ | ⟨e, he, hr, hn⟩
  · rw [hn] at h
    simp at h
  · rw [hn] at h
    simp at h
  · constructor
    · rw [hr]
      simp
    · rw [hr]
      rfl
  · rw [hn] at h
    simp at h
    subst h
    rcases he with hc | hc <;> cases hc

/-- C8: on the three terminating paths of `main` — normal completion,
keyboard interrupt, transport error — `ShutdownAllSwitchConnections` is the
final step of the trace; and the (spec-modelled) shutdown itself is
idempotent and closes every connection from any state, so it is safe even
when connect or arbitration never completed. -/
theorem c8_shutdown_on_caught_paths :
    (∀ (fault : FaultSpec) (lines : List String),
      ((run fault lines).2).isUncaught = false →
      ((run fault lines).1).getLast? = some Event.shutdownAll) ∧
    (∀ cs : List ConnState,
      shutdownAllSwitchConnections (shutdownAllSwitchConnections cs) =
        shutdownAllSwitchConnections cs ∧
      ∀ c ∈ shutdownAllSwitchConnections cs, c = ConnState.closed) := by
  constructor
  · intro fault lines h
    rcases run_cases fault lines with ⟨hr, _⟩ | ⟨hr, _⟩ | ⟨hr, _⟩ | ⟨e, _, hr, _⟩
    · rw [hr]
      exact getLast?_append_singleton _ _
    · rw [hr]
      exact getLast?_append_pair _ _ _
    · rw [hr]
      exact getLast?_append_pair _ _ _
    · rw [hr] at h
      simp [TermKind.isUncaught] at h
  · intro cs
    constructor
    · simp [shutdownAllSwitchConnections, List.map_map, Function.comp]
    · intro c hc
      simp only [shutdownAllSwitchConnections, List.mem_map] at hc
      obtain ⟨x, _, hx⟩ := hc
      exact hx.symm

/-- C9 (amended): for every table entry all of whose match fields use the
exact branch of the wire oneof, the dumped line is exactly the
spec-described `fieldName:hexValue ... | actionName | paramName:hexValue`
rendering with schema-decoded names and hex of the wire bytes. -/
theorem c9_exact_matches_render_as_spec (h : P4InfoHelper) (tn : String)
    (e : WireTableEntry) (hx : ∀ m ∈ e.fieldMatches, isExactMatch m = true) :
    renderEntryLine h tn e = specEntryLine h tn e := by
  unfold renderEntryLine specEntryLine
  have hmap : e.fieldMatches.map
        (fun m => h.matchFieldName tn m.field_id ++ ":" ++ hexOf (exactValue m) ++ " ") =
      e.fieldMatches.map
        (fun m => h.matchFieldName tn m.field_id ++ ":" ++ hexOf (wireBytes m) ++ " ") := by
    apply List.map_congr_left
    intro m hm
    have hxm := hx m hm
    cases hk : m.kind with
    | exactW v => simp [exactValue, wireBytes, hk]
    | lpmW v n =>
      rw [isExactMatch, hk] at hxm
      simp at hxm
  rw [hmap]

/-- C9 (counterexample): a route-table entry whose match is a
longest-prefix match on 10.0.1.0/24 is rendered with an empty match value —
the code reads `match.exact.value`, which is the oneof default for an LPM
entry — instead of the hex of the wire bytes `0a000100` that the claim
requires. -/
theorem c9_lpm_match_value_missing :
    renderEntryLine demoHelper "MyIngress.ipv4_route" demoLpmEntry ≠
      specEntryLine demoHelper "MyIngress.ipv4_route" demoLpmEntry ∧
    renderEntryLine demoHelper "MyIngress.ipv4_route" demoLpmEntry =
      "hdr.ipv4.dst_ipAddr: | MyIngress.forward_to_next_hop | next_hop:0a000101 " ∧
    specEntryLine demoHelper "MyIngress.ipv4_route" demoLpmEntry =
      "hdr.ipv4.dst_ipAddr:0a000100 | MyIngress.forward_to_next_hop | next_hop:0a000101 " := by
  decide

/-- C9 (witness): the amended rendering theorem applied to a concrete
exact-match entry. -/
theorem c9_exact_matches_render_as_spec_witness :
    renderEntryLine demoHelper "MyIngress.arp_table" demoExactEntry =
      specEntryLine demoHelper "MyIngress.arp_table" demoExactEntry :=
  c9_exact_matches_render_as_spec demoHelper "MyIngress.arp_table" demoExactEntry
    (by decide)

/-- C4 (counterexample): for the two-line specification whose second line
has only 4 comma-separated fields, the three entries derived from the first
line are already installed when the malformed line raises, the raised error
is an uncaught `IndexError` (no structured parse error), and the shutdown
call is skipped — contradicting the claim that no entries from any line are
installed. -/
theorem c4_earlier_lines_already_installed :
    (okWrites ((run noFault [demoLine, badLine4]).1)).length = 3 ∧
    okWrites ((run noFault [demoLine, badLine4]).1) = deriveEntries demoRecord ∧
    (run noFault [demoLine, badLine4]).2 = TermKind.uncaught PyExn.indexError ∧
    Event.shutdownAll ∉ (run noFault [demoLine, badLine4]).1 := by
  decide

/-- C4 (amended): a line with 4 comma-separated fields aborts ingestion at
that line with an uncaught `IndexError`: no entry from the malformed line or
any later line is installed, but the three entries of every earlier
well-formed line have already been installed, and the shutdown call is
skipped. -/
theorem c4_four_field_line_aborts (good : List String) (bad : String)
    (tail : List String) (hgood : ∀ l ∈ good, parseOk l = true)
    (hbad4 : (pySplit bad ',').length = 4)
    (hslash : (pySplit ((pySplit bad ',').headI) '/').length = 2) :
    (run noFault (good ++ bad :: tail)).2 = TermKind.uncaught PyExn.indexError ∧
    (okWrites ((run noFault (good ++ bad :: tail)).1)).length = 3 * good.length ∧
    Event.shutdownAll ∉ (run noFault (good ++ bad :: tail)).1 := by
  have hb := parseLine_four_fields bad hbad4 hslash
  obtain ⟨hsnd, hcnt⟩ := runLines_good_bad bad tail hb good hgood 0
  have htb := tryBody_setup_ok noFault (good ++ bad :: tail) rfl rfl rfl
  rw [seqRun_fst_some _ _ _ hsnd] at htb
  rcases run_cases noFault (good ++ bad :: tail) with
    ⟨hr, hn⟩ | ⟨hr, hn⟩ | ⟨hr, hn⟩ | ⟨e, _, hr, hn⟩
  · rw [htb] at hn
    simp at hn
    rw [hsnd] at hn
    simp at hn
  · rw [htb] at hn
    simp at hn
    rw [hsnd] at hn
    simp at hn
  · rw [htb] at hn
    simp at hn
    rw [hsnd] at hn
    simp at hn
  · rw [htb] at hn
    simp at hn
    rw [hsnd] at hn
    simp at hn
    subst hn
    rw [htb] at hr
    simp only at hr
    refine ⟨?_, ?_, ?_⟩
    · rw [hr]
    · rw [hr]
      simp only [okWrites]
      exact hcnt
    · rw [hr]
      intro hmem
      simp only [List.mem_cons] at hmem
      rcases hmem with h | h | h | h
      · cases h
      · cases h
      · cases h
      · obtain ⟨d, ok, hd⟩ := runLines_events noFault (good ++ bad :: tail) 0
          Event.shutdownAll h
        cases hd

/-- C7 (witness): the theorem applied to a transport error injected at the
pipeline-config push. -/
theorem c7_rpc_error_witness :
    Event.printGrpcDiag ∈ (run faultPushRpc [demoLine]).1 ∧
    exitCode ((run faultPushRpc [demoLine]).2) = 0 :=
  c7_rpc_error_prints_and_exits_zero faultPushRpc [demoLine] (by decide)

/-- C6 (witness): in the fault-free single-record run, the pipeline-config
push at position 2 is preceded by the arbitration event. -/
theorem c6_arbitration_witness :
    ∃ j, j < 2 ∧ ((run noFault [demoLine]).1).get? j = some Event.arbitrate :=
  c6_arbitration_before_master_ops noFault [demoLine] 2 Event.pushConfig
    (by decide) (by decide)

/-- C8 (witness): the theorem applied to the fault-free single-record run
and to a one-element connection list whose connect never completed. -/
theorem c8_shutdown_witness :
    ((run noFault [demoLine]).1).getLast? = some Event.shutdownAll ∧
    shutdownAllSwitchConnections (shutdownAllSwitchConnections [ConnState.unconnected]) =
      shutdownAllSwitchConnections [ConnState.unconnected] :=
  ⟨c8_shutdown_on_caught_paths.1 noFault [demoLine] (by decide),
   (c8_shutdown_on_caught_paths.2 [ConnState.unconnected]).1⟩

/-- C10: when the p4info and BMv2 JSON files exist but the routing-info path
does not, startup prints usage and exits with code 1, and the printed
file-not-found diagnostic names the BMv2 JSON path. -/
theorem c10_missing_routing_info_names_bmv2 (fileExists : String → Bool) (a : Args)
    (h1 : fileExists a.p4info = true) (h2 : fileExists a.bmv2_json = true)
    (h3 : fileExists a.routing_info = false) :
    checkArgs fileExists a = some
      { usagePrinted := true,
        message := "\nBMv2 JSON file not found: " ++ a.bmv2_json ++ "\nHave you run 'make'?",
        code := 1 } := by
  simp [checkArgs, h1, h2, h3]

/-- C10 (witness): the theorem applied to concrete paths where only the
routing-info file is missing. -/
theorem c10_missing_routing_info_witness :
    checkArgs (fun s => !(s == "r")) ⟨"p", "b", "r"⟩ = some
      { usagePrinted := true,
        message := "\nBMv2 JSON file not found: " ++ "b" ++ "\nHave you run 'make'?",
        code := 1 } :=
  c10_missing_routing_info_names_bmv2 (fun s => !(s == "r")) ⟨"p", "b", "r"⟩
    (by decide) (by decide) (by decide)

/-- C4 (witness): the amended theorem applied to a good line followed by the
4-field line. -/
theorem c4_four_field_line_aborts_witness :
    (run noFault ([demoLine] ++ badLine4 :: [])).2 = TermKind.uncaught PyExn.indexError ∧
    (okWrites ((run noFault ([demoLine] ++ badLine4 :: [])).1)).length = 3 * [demoLine].length ∧
    Event.shutdownAll ∉ (run noFault ([demoLine] ++ badLine4 :: [])).1 :=
  c4_four_field_line_aborts [demoLine] badLine4 [] (by decide) (by decide) (by decide)

end Controller
